import Mathlib

/-!
Verification development for the Sectify repository: a shallow embedding of
the frontend result-display, upload, and feedback components (from
`SectionDisplay`, `DocumentUpload` and the API client), together with a
model of the backend document pipeline (segmenter, feature extractor,
relevance scorer, feedback store) which is described by the design
specification and the README files of the repository.
-/

namespace Sectify

/-! ### Character and line utilities -/

/-- Drop whitespace from both ends of a line of characters. -/
def trimLine (cs : List Char) : List Char :=
  ((cs.dropWhile (fun c => c.isWhitespace)).reverse.dropWhile
    (fun c => c.isWhitespace)).reverse

/-- Split a character list at every character satisfying `p`.  The separators
are dropped; the result always has at least one (possibly empty) part. -/
def splitOnPred (p : Char → Bool) : List Char → List (List Char)
  | [] => [[]]
  | c :: rest =>
    match splitOnPred p rest with
    | [] => [[]]
    | l :: ls => if p c then [] :: l :: ls else (c :: l) :: ls

/-- Split text into its lines at newline characters. -/
def splitLines (cs : List Char) : List (List Char) :=
  splitOnPred (fun c => c == '\n') cs

/-- Join lines back together with newline characters in between. -/
def joinLines : List (List Char) → List Char
  | [] => []
  | [l] => l
  | l :: l2 :: ls => l ++ '\n' :: joinLines (l2 :: ls)

/-- Whitespace-separated non-empty words of a line. -/
def lineWords (cs : List Char) : List (List Char) :=
  (splitOnPred (fun c => c.isWhitespace) cs).filter (fun w => !w.isEmpty)

/-- First whitespace-delimited token of a line. -/
def headToken (cs : List Char) : List Char :=
  cs.takeWhile (fun c => !c.isWhitespace)

/-! ### Header pattern classes

Modelled from the spec: the segmenter's prioritized boundary pattern classes
(numbered headers, roman-numeral headers, lettered headers, ALL-CAPS short
lines, Title-Case short lines, explicit visual breaks).  The backend
segmenter source is not part of the repository snapshot, so these matchers
follow the specification's description of each class. -/

/-- Token of the shape `1.`, `1.1.`, `1.1.1.` (digit groups separated and
terminated by dots, nesting depth unbounded): all characters are digits or
dots, the first is a digit, the last is a dot, and no two dots are
adjacent. -/
def isNumberedToken (cs : List Char) : Bool :=
  match cs with
  | [] => false
  | c :: _ =>
    c.isDigit && cs.all (fun d => d.isDigit || d == '.') &&
    (cs.getLast? == some '.') &&
    (cs.zip cs.tail).all (fun p => !(p.1 == '.' && p.2 == '.'))

/-- Character allowed in an upper-case roman numeral. -/
def isRomanChar (c : Char) : Bool :=
  c == 'I' || c == 'V' || c == 'X' || c == 'L' || c == 'C' || c == 'D' || c == 'M'

/-- Token of the shape `I.`, `II.`, `IV.`: roman-numeral characters followed
by a terminating dot. -/
def isRomanToken (cs : List Char) : Bool :=
  (cs.getLast? == some '.') && !cs.dropLast.isEmpty && cs.dropLast.all isRomanChar

/-- Token of the shape `A.`, `B.`: a single upper-case letter and a dot. -/
def isLetteredToken (cs : List Char) : Bool :=
  match cs with
  | [c, d] => c.isUpper && d == '.'
  | _ => false

/-- Modelled from the spec: numbered header line (pattern class 1). -/
def isNumberedHeaderLine (cs : List Char) : Bool :=
  isNumberedToken (headToken (trimLine cs))

/-- Modelled from the spec: roman-numeral header line (pattern class 2). -/
def isRomanHeaderLine (cs : List Char) : Bool :=
  isRomanToken (headToken (trimLine cs))

/-- Modelled from the spec: lettered header line (pattern class 3). -/
def isLetteredHeaderLine (cs : List Char) : Bool :=
  isLetteredToken (headToken (trimLine cs))

/-- Modelled from the spec: ALL-CAPS short line (pattern class 4) — length
below the 80-character cap, containing a letter, with every letter
upper-case. -/
def isAllCapsShortLine (cs : List Char) : Bool :=
  let t := trimLine cs
  !t.isEmpty && t.length ≤ 80 && t.any (fun c => c.isAlpha) &&
  t.all (fun c => !c.isAlpha || c.isUpper)

/-- Word starting with an upper-case letter. -/
def startsUpper (w : List Char) : Bool :=
  match w with
  | [] => false
  | c :: _ => c.isUpper

/-- Modelled from the spec: Title-Case short line matching a heading shape
(pattern class 5) — few words, each starting upper-case, no terminal
punctuation. -/
def isTitleCaseShortLine (cs : List Char) : Bool :=
  let t := trimLine cs
  let ws := lineWords t
  !ws.isEmpty && ws.length ≤ 8 && ws.all startsUpper &&
  (match t.getLast? with
   | some c => !(c == '.' || c == '!' || c == '?' || c == ':' || c == ';' || c == ',')
   | none => false)

/-- Modelled from the spec: explicit visual break (pattern class 6),
represented by a form-feed / page-break marker on the line.  The spec's
blank-line-run variant has no stated threshold and is modelled by the
form-feed marker alone. -/
def isVisualBreakLine (cs : List Char) : Bool :=
  cs.any (fun c => c == Char.ofNat 12)

/-- Modelled from the spec: a line starts a new section exactly when it
matches one of the six prioritized pattern classes.  All classes trigger the
same boundary action, so the top-to-bottom tie-break order of the spec is
observationally the disjunction of the matchers. -/
def isHeaderLine (cs : List Char) : Bool :=
  isNumberedHeaderLine cs || isRomanHeaderLine cs || isLetteredHeaderLine cs ||
  isAllCapsShortLine cs || isTitleCaseShortLine cs || isVisualBreakLine cs

/-! ### Segmenter -/

/-- Raw section record accumulated while scanning lines: the triggering
header line (or synthesized placeholder title) and the body lines. -/
structure RawSection where
  title : List Char
  bodyLines : List (List Char)
deriving DecidableEq, Repr

/-- Placeholder title used when the document's first content precedes any
header. -/
def untitledTitle : List Char := "Untitled Section 1".data

/-- Modelled from the spec: one step of the line scan.  A header line starts
a new section titled by that line; any other line is appended to the current
section's body (creating the placeholder-titled leading section if no header
has been seen yet).  The accumulator holds sections in reverse order. -/
def stepLine (acc : List RawSection) (line : List Char) : List RawSection :=
  if isHeaderLine line then ⟨line, []⟩ :: acc
  else
    match acc with
    | [] => [⟨untitledTitle, [line]⟩]
    | sec :: rest => ⟨sec.title, sec.bodyLines ++ [line]⟩ :: rest

/-- Modelled from the spec: scan all lines in order, producing the ordered
raw section sequence. -/
def rawSections (lines : List (List Char)) : List RawSection :=
  (lines.foldl stepLine []).reverse

/-- Minimum section body length (default 20 characters, per the README
configuration `MIN_SECTION_LENGTH=20`). -/
def MIN_SECTION_LENGTH : Nat := 20

/-- Modelled from the spec: merge pass, carrying the current preceding
section.  A following section whose body is shorter than
`MIN_SECTION_LENGTH` is folded into the preceding section (its title line
and body lines are appended to the preceding body) instead of being emitted
standalone. -/
def mergeAux (cur : RawSection) : List RawSection → List RawSection
  | [] => [cur]
  | t :: rest =>
    if (joinLines t.bodyLines).length < MIN_SECTION_LENGTH then
      mergeAux ⟨cur.title, cur.bodyLines ++ t.title :: t.bodyLines⟩ rest
    else cur :: mergeAux t rest

/-- Modelled from the spec: the minimum-section-length policy applied to the
raw section sequence.  The first section has no preceding section and is
kept as scanned. -/
def mergeShortSections : List RawSection → List RawSection
  | [] => []
  | s :: rest => mergeAux s rest

/-- Section record visible to the rest of the pipeline: stable id, title,
body text, 0-based position and optional page number (left unset because the
page-offset-supplying text-extraction collaborator is outside the core). -/
structure Section where
  id : Nat
  title : String
  body : String
  position_index : Nat
  page_number : Option Nat
deriving DecidableEq, Repr

/-- Assign consecutive ids and position indices to the merged raw
sections. -/
def attachIndices : Nat → List RawSection → List Section
  | _, [] => []
  | i, s :: rest =>
    ⟨i, String.mk s.title, String.mk (joinLines s.bodyLines), i, none⟩ ::
      attachIndices (i + 1) rest

/-- Modelled from the spec: `segment(normalized_text)` — split the text into
lines, scan for header boundaries, apply the minimum-length merge policy and
number the resulting sections. -/
def segment (text : String) : List Section :=
  attachIndices 0 (mergeShortSections (rawSections (splitLines text.data)))

/-! ### Feature extractor -/

/-- Named-entity counts per category, as returned by the optional external
natural-language analysis collaborator. -/
structure EntityCounts where
  person : Nat
  org : Nat
  location : Nat
  date : Nat
deriving DecidableEq, Repr

/-- Fixed-shape feature vector with named scalar slots plus descriptive
tags, as in the spec's data model. -/
structure FeatureVector where
  section_id : Nat
  word_count : ℚ
  sentence_count : ℚ
  char_density : ℚ
  digit_token_count : ℚ
  currency_percent_count : ℚ
  date_pattern_count : ℚ
  entity_person_count : ℚ
  entity_org_count : ℚ
  entity_location_count : ℚ
  entity_date_count : ℚ
  structural_marker_count : ℚ
  normalized_position : ℚ
  normalized_title_length : ℚ
  tags : List String
deriving DecidableEq, Repr

/-- Clamp a rational into the closed unit interval. -/
def clamp01 (x : ℚ) : ℚ := max 0 (min 1 x)

/-- Count of sentence-terminating punctuation marks. -/
def countSentenceMarks (cs : List Char) : Nat :=
  cs.countP (fun c => c == '.' || c == '!' || c == '?')

/-- Count of non-whitespace characters. -/
def nonWhitespaceCount (cs : List Char) : Nat :=
  cs.countP (fun c => !c.isWhitespace)

/-- Token containing at least one digit. -/
def isDigitBearing (w : List Char) : Bool :=
  w.any (fun c => c.isDigit)

/-- Token containing a currency or percentage marker. -/
def isCurrencyOrPercent (w : List Char) : Bool :=
  w.any (fun c => c == '$' || c == '%')

/-- Modelled from the spec: date-like token — a four-digit year or a
digit-bearing slashed date. -/
def isDateLikeToken (w : List Char) : Bool :=
  (w.length == 4 && w.all (fun c => c.isDigit)) ||
  (w.any (fun c => c == '/') && w.any (fun c => c.isDigit))

/-- Line whose first non-blank character is a bullet marker. -/
def isBulletLine (cs : List Char) : Bool :=
  match trimLine cs with
  | [] => false
  | c :: _ => c == '-' || c == '*' || c == '•'

/-- Modelled from the spec: `extract(section)` — the deterministic feature
vector of a section, computed from its text and position only.  The optional
`nlp` analyzer models the pluggable external natural-language collaborator;
when it is absent the entity-count slots are zero-filled rather than
failing. -/
def extract (nlp : Option (List Char → EntityCounts)) (s : Section)
    (totalSections : Nat) : FeatureVector :=
  let body := s.body.data
  let ws := lineWords body
  let ents := match nlp with
    | some analyze => analyze body
    | none => ⟨0, 0, 0, 0⟩
  let digitToks := ws.countP isDigitBearing
  let curToks := ws.countP isCurrencyOrPercent
  let dateToks := ws.countP isDateLikeToken
  let entTotal := ents.person + ents.org + ents.location + ents.date
  let bullets := (splitLines body).countP isBulletLine
  let tableMarks := body.countP (fun c => c == '|')
  { section_id := s.id
    word_count := (ws.length : ℚ)
    sentence_count := (countSentenceMarks body : ℚ)
    char_density := (nonWhitespaceCount body : ℚ) / (body.length : ℚ)
    digit_token_count := (digitToks : ℚ)
    currency_percent_count := (curToks : ℚ)
    date_pattern_count := (dateToks : ℚ)
    entity_person_count := (ents.person : ℚ)
    entity_org_count := (ents.org : ℚ)
    entity_location_count := (ents.location : ℚ)
    entity_date_count := (ents.date : ℚ)
    structural_marker_count := ((bullets + tableMarks : Nat) : ℚ)
    normalized_position := (s.position_index : ℚ) / (totalSections : ℚ)
    normalized_title_length := clamp01 ((s.title.length : ℚ) / 80)
    tags :=
      (if 0 < digitToks then ["numbers"] else []) ++
      (if 0 < dateToks then ["dates"] else []) ++
      (if 0 < entTotal then ["entities"] else []) ++
      (if 0 < tableMarks then ["table"] else []) ++
      (if 0 < bullets then ["list"] else []) }

/-! ### Relevance scorer, feedback store and training controller -/

/-- Feedback record, the sole training signal (append-only). -/
structure FeedbackRecord where
  section_id : Nat
  document_id : Nat
  feature_vector : List ℚ
  is_relevant : Bool
  timestamp : Nat
deriving DecidableEq, Repr

/-- Retraining accumulation threshold (default 10, per the README: after
10+ examples the system automatically retrains). -/
def RETRAIN_THRESHOLD : Nat := 10

/-- Identity of a feedback submission for duplicate detection: the
(section id, label) pair. -/
def feedbackKey (r : FeedbackRecord) : Nat × Bool :=
  (r.section_id, r.is_relevant)

/-- Two feedback records carrying the identical (section id, label) pair. -/
def sameKey (a b : FeedbackRecord) : Bool :=
  feedbackKey a == feedbackKey b

/-- Modelled from the spec: the process-wide scorer state — the accumulated
feedback log and the optional trained model.  The fitted
ensemble-of-decision-trees classifier of the backend (scikit-learn, an
external collaborator) is represented by the full training set it was
fitted on. -/
structure ScorerState where
  feedback : List FeedbackRecord
  model : Option (List FeedbackRecord)
deriving DecidableEq, Repr

/-- Initial scorer state: no feedback, untrained (heuristic-only). -/
def initialScorerState : ScorerState := ⟨[], none⟩

/-- Both class labels occur in a feedback set. -/
def hasBothLabels (l : List FeedbackRecord) : Bool :=
  l.any (fun r => r.is_relevant) && l.any (fun r => !r.is_relevant)

/-- Modelled from the spec: fitting the classifier on the accumulated
feedback set succeeds exactly when both labels are present (a single-class
feedback set is a training failure); a successful fit is represented by the
data it was fitted on. -/
def fitModel (l : List FeedbackRecord) : Option (List FeedbackRecord) :=
  if hasBothLabels l then some l else none

/-- Modelled from the spec: `record(feedback)` — append a feedback record,
with idempotent rejection (no error, no duplicate insert) when an identical
(section id, label) pair already exists. -/
def record (st : ScorerState) (r : FeedbackRecord) : ScorerState :=
  if st.feedback.any (fun e => sameKey e r) then st
  else { st with feedback := st.feedback ++ [r] }

/-- Modelled from the spec: `maybe_retrain()` — when the accumulated count
is a nonzero multiple of `RETRAIN_THRESHOLD`, fit a new classifier on the
entire accumulated set and swap it in; a failed fit (single-class data)
leaves the previous state untouched. -/
def maybe_retrain (st : ScorerState) : ScorerState × Bool :=
  if st.feedback.length ≠ 0 ∧ st.feedback.length % RETRAIN_THRESHOLD = 0 then
    match fitModel st.feedback with
    | some m => ({ st with model := some m }, true)
    | none => (st, false)
  else (st, false)

/-- Modelled from the spec: `submit_feedback` — record the feedback and then
invoke `maybe_retrain`, as the controller does after every record. -/
def submit_feedback (st : ScorerState) (r : FeedbackRecord) : ScorerState :=
  (maybe_retrain (record st r)).1

/-- Run a whole sequence of feedback events through the store. -/
def runFeedback (st : ScorerState) (rs : List FeedbackRecord) : ScorerState :=
  rs.foldl submit_feedback st

/-- Scoring mode of the relevance scorer state machine. -/
inductive ScoringMode where
  | heuristic
  | learned
deriving DecidableEq, Repr

/-- Modelled from the spec: `current_mode()` — learned exactly when a fitted
model is held. -/
def current_mode (st : ScorerState) : ScoringMode :=
  if st.model.isSome then ScoringMode.learned else ScoringMode.heuristic

/-- Minimum-content word threshold of the heuristic's boilerplate
penalty. -/
def MIN_CONTENT_WORDS : ℚ := 5

/-- Modelled from the spec: heuristic relevance — the clamped weighted sum
of normalized numeric features, with positive weights for word/sentence
count, numeric/date/entity richness and structural markers, and a penalty
subtracted when the word count is below the minimum-content threshold. -/
def heuristicScore (fv : FeatureVector) : ℚ :=
  clamp01 (
    (1 : ℚ)/4 * clamp01 (fv.word_count / 120) +
    (3 : ℚ)/20 * clamp01 (fv.sentence_count / 8) +
    (3 : ℚ)/20 * clamp01 (fv.digit_token_count / 6) +
    (1 : ℚ)/10 * clamp01 (fv.currency_percent_count / 4) +
    (1 : ℚ)/10 * clamp01 (fv.date_pattern_count / 4) +
    (1 : ℚ)/10 * clamp01 ((fv.entity_person_count + fv.entity_org_count +
      fv.entity_location_count + fv.entity_date_count) / 6) +
    (1 : ℚ)/10 * clamp01 (fv.structural_marker_count / 5) +
    (1 : ℚ)/20 * clamp01 fv.char_density -
    (if fv.word_count < MIN_CONTENT_WORDS then (1 : ℚ)/4 else 0))

/-- Modelled from the spec: learned relevance — the fitted classifier's
predicted positive-class probability.  The external classifier is modelled
as predicting the positive base rate of its training set; only the contract
that the prediction is a probability in the unit interval is relied upon. -/
def learnedScore (m : List FeedbackRecord) (_fv : FeatureVector) : ℚ :=
  ((m.countP (fun r => r.is_relevant) : ℚ)) / ((m.length : ℚ))

/-- Modelled from the spec: `score(feature_vector)` — the relevance in the
unit interval together with the mode that produced it, selected by the
current model state (heuristic fallback whenever no model is held). -/
def score (st : ScorerState) (fv : FeatureVector) : ℚ × ScoringMode :=
  match st.model with
  | some m => (learnedScore m fv, ScoringMode.learned)
  | none => (heuristicScore fv, ScoringMode.heuristic)

/-! ### Frontend: SectionDisplay -/

/-- Section as displayed by the results viewer. -/
structure DisplaySection where
  id : Nat
  title : String
  content : String
  relevance_score : ℚ
  tags : List String
  page_number : Option Nat
deriving DecidableEq, Repr

/-- Document result as consumed by `SectionDisplay`. -/
structure DocumentResult where
  document_id : Nat
  document_name : String
  total_sections : Nat
  sections : List DisplaySection
deriving DecidableEq, Repr

/-- Embedding of `doc.sections.filter(s => s.relevance_score >= threshold)`
from `SectionDisplay`. -/
def filteredSections (doc : DocumentResult) (threshold : ℚ) : List DisplaySection :=
  doc.sections.filter (fun s => threshold ≤ s.relevance_score)

/-- The displayed `Relevant:` count — `filteredSections.length`. -/
def relevantCountDisplayed (doc : DocumentResult) (threshold : ℚ) : Nat :=
  (filteredSections doc threshold).length

/-- The displayed `Showing N sections` count — `filteredSections.length`. -/
def sectionsShownCount (doc : DocumentResult) (threshold : ℚ) : Nat :=
  (filteredSections doc threshold).length

/-- The list of sections rendered by `filteredSections.map(...)`. -/
def renderedSections (doc : DocumentResult) (threshold : ℚ) : List DisplaySection :=
  filteredSections doc threshold

/-- Embedding of `getScoreClass` from `SectionDisplay`. -/
def getScoreClass (s : ℚ) : String :=
  if (7 : ℚ)/10 ≤ s then "high"
  else if (4 : ℚ)/10 ≤ s then "medium"
  else "low"

/-- Embedding of `getScoreColor` from `SectionDisplay`. -/
def getScoreColor (s : ℚ) : String :=
  if (7 : ℚ)/10 ≤ s then "text-emerald-400"
  else if (4 : ℚ)/10 ≤ s then "text-yellow-400"
  else "text-red-400"

/-! ### Frontend: DocumentUpload -/

/-- A file accepted by the dropzone. -/
structure UploadFile where
  name : String
deriving DecidableEq, Repr

/-- The network action taken by `onDrop`. -/
inductive UploadAction where
  | noUpload
  | batchUpload (files : List UploadFile)
  | singleUpload (file : UploadFile)
deriving DecidableEq, Repr

/-- Embedding of `onDrop` from `DocumentUpload`: nothing on an empty
accepted list; the batch endpoint when batch mode is on and more than one
file was accepted; otherwise a single upload of `acceptedFiles[0]`. -/
def onDrop (batchMode : Bool) (acceptedFiles : List UploadFile) : UploadAction :=
  match acceptedFiles with
  | [] => UploadAction.noUpload
  | f :: rest =>
    if batchMode && decide (1 < (f :: rest).length) then
      UploadAction.batchUpload (f :: rest)
    else
      UploadAction.singleUpload f

/-! ### Frontend: feedback state -/

/-- The `${docId}-${sectionId}` key used by `SectionDisplay` for the
`feedbackGiven` and `expandedSections` sets. -/
def feedbackKeyString (docId sectionId : Nat) : String :=
  toString docId ++ "-" ++ toString sectionId

/-- Outcome of the `api.submitFeedback` call awaited by `handleFeedback`. -/
inductive ApiOutcome where
  | success
  | failure
deriving DecidableEq, Repr

/-- Embedding of `handleFeedback` from `SectionDisplay`: on success the key
is added to `feedbackGiven`; on a rejected promise the catch block leaves
the set unchanged. -/
def handleFeedback (outcome : ApiOutcome) (feedbackGiven : Finset String)
    (docId sectionId : Nat) : Finset String :=
  match outcome with
  | ApiOutcome.success => insert (feedbackKeyString docId sectionId) feedbackGiven
  | ApiOutcome.failure => feedbackGiven

/-- Run a sequence of feedback interactions (outcome, document id, section
id) against the component state. -/
def runFeedbackEvents (start : Finset String)
    (events : List (ApiOutcome × Nat × Nat)) : Finset String :=
  events.foldl (fun fb e => handleFeedback e.1 fb e.2.1 e.2.2) start

/-- Rendering condition `trainingMode && !hasFeedback` of the feedback
prompt in `SectionDisplay`. -/
def showFeedbackPrompt (trainingMode : Bool) (feedbackGiven : Finset String)
    (docId sectionId : Nat) : Bool :=
  trainingMode && !(decide (feedbackKeyString docId sectionId ∈ feedbackGiven))

end Sectify

namespace Sectify

/-! ### Helper lemmas: line splitting and joining -/

theorem splitOnPred_ne_nil (p : Char → Bool) (cs : List Char) :
    splitOnPred p cs ≠ [] := by
  cases cs with
  | nil => simp [splitOnPred]
  | cons c rest =>
    simp only [splitOnPred]
    cases splitOnPred p rest with
    | nil => simp
    | cons l ls =>
      by_cases hp : p c = true
      · simp [hp]
      · simp [hp]

theorem joinLines_cons_cons (l a : List Char) (ls : List (List Char)) :
    joinLines (l :: a :: ls) = l ++ '\n' :: joinLines (a :: ls) := by
  simp [joinLines]

theorem joinLines_splitLines (cs : List Char) :
    joinLines (splitLines cs) = cs := by
  induction cs with
  | nil => simp [splitLines, splitOnPred, joinLines]
  | cons c rest ih =>
    unfold splitLines at ih ⊢
    simp only [splitOnPred]
    obtain ⟨l, ls, h⟩ : ∃ l ls, splitOnPred (fun c => c == '\n') rest = l :: ls := by
      cases hx : splitOnPred (fun c => c == '\n') rest with
      | nil => exact absurd hx (splitOnPred_ne_nil _ rest)
      | cons l ls => exact ⟨l, ls, rfl⟩
    rw [h] at ih
    rw [h]
    show joinLines (if (c == '\n') = true then [] :: l :: ls else (c :: l) :: ls) = c :: rest
    by_cases hc : c = '\n'
    · rw [if_pos (by simp [hc])]
      rw [joinLines_cons_cons, ih, hc]
      simp
    · rw [if_neg (by simp [hc])]
      cases ls with
      | nil =>
        simp only [joinLines] at ih ⊢
        rw [ih]
      | cons a ls' =>
        rw [joinLines_cons_cons]
        rw [joinLines_cons_cons] at ih
        simp only [List.cons_append]
        rw [ih]

theorem joinLines_length_le_append :
    ∀ (a b : List (List Char)),
      (joinLines a).length ≤ (joinLines (a ++ b)).length
  | [], b => by simp [joinLines]
  | [l], b => by
    cases b with
    | nil => simp
    | cons b0 bs =>
      simp only [List.singleton_append, joinLines_cons_cons, joinLines,
        List.length_append, List.length_cons]
      omega
  | l :: l' :: ls, b => by
    have ih := joinLines_length_le_append (l' :: ls) b
    simp only [List.cons_append] at ih ⊢
    rw [joinLines_cons_cons, joinLines_cons_cons]
    simp only [List.length_append, List.length_cons]
    have : (l' :: ls) ++ b = l' :: (ls ++ b) := rfl
    omega

/-! ### Helper lemmas: segmenter -/

theorem stepLine_ne_nil (acc : List RawSection) (line : List Char) :
    stepLine acc line ≠ [] := by
  unfold stepLine
  split
  · simp
  · cases acc <;> simp

theorem foldl_stepLine_ne_nil :
    ∀ (lines : List (List Char)) (acc : List RawSection),
      acc ≠ [] ∨ lines ≠ [] → lines.foldl stepLine acc ≠ []
  | [], acc, h => by
    simp only [List.foldl_nil]
    rcases h with h | h
    · exact h
    · exact absurd rfl h
  | l :: ls, acc, _ => by
    simp only [List.foldl_cons]
    exact foldl_stepLine_ne_nil ls (stepLine acc l) (Or.inl (stepLine_ne_nil acc l))

theorem rawSections_ne_nil (lines : List (List Char)) (h : lines ≠ []) :
    rawSections lines ≠ [] := by
  unfold rawSections
  simp only [ne_eq, List.reverse_eq_nil_iff]
  exact foldl_stepLine_ne_nil lines [] (Or.inr h)

theorem mergeAux_ne_nil :
    ∀ (l : List RawSection) (cur : RawSection), mergeAux cur l ≠ []
  | [], cur => by simp [mergeAux]
  | t :: rest, cur => by
    unfold mergeAux
    split
    · exact mergeAux_ne_nil rest _
    · simp

theorem mergeShortSections_ne_nil (l : List RawSection) (h : l ≠ []) :
    mergeShortSections l ≠ [] := by
  cases l with
  | nil => exact absurd rfl h
  | cons s rest => exact mergeAux_ne_nil rest s

theorem mergeAux_all_long :
    ∀ (l : List RawSection) (cur : RawSection),
      MIN_SECTION_LENGTH ≤ (joinLines cur.bodyLines).length →
      ∀ x ∈ mergeAux cur l, MIN_SECTION_LENGTH ≤ (joinLines x.bodyLines).length
  | [], cur, hcur => by
    intro x hx
    simp only [mergeAux, List.mem_singleton] at hx
    subst hx
    exact hcur
  | t :: rest, cur, hcur => by
    intro x hx
    unfold mergeAux at hx
    split at hx
    · refine mergeAux_all_long rest _ ?_ x hx
      exact le_trans hcur (joinLines_length_le_append _ _)
    · rename_i hlong
      rcases List.mem_cons.mp hx with rfl | hx'
      · exact hcur
      · exact mergeAux_all_long rest t (le_of_not_lt hlong) x hx'

theorem mergeAux_drop_one :
    ∀ (l : List RawSection) (cur : RawSection),
      ∀ x ∈ (mergeAux cur l).drop 1, MIN_SECTION_LENGTH ≤ (joinLines x.bodyLines).length
  | [], cur => by simp [mergeAux]
  | t :: rest, cur => by
    intro x hx
    unfold mergeAux at hx
    split at hx
    · exact mergeAux_drop_one rest _ x hx
    · rename_i hlong
      simp only [List.drop_succ_cons, List.drop_zero] at hx
      exact mergeAux_all_long rest t (le_of_not_lt hlong) x hx

theorem attachIndices_length :
    ∀ (i : Nat) (l : List RawSection), (attachIndices i l).length = l.length
  | _, [] => rfl
  | i, s :: rest => by
    simp [attachIndices, attachIndices_length (i + 1) rest]

theorem attachIndices_mem :
    ∀ (i : Nat) (l : List RawSection) (x : Section),
      x ∈ attachIndices i l → ∃ r ∈ l, x.body = String.mk (joinLines r.bodyLines)
  | _, [], x => by simp [attachIndices]
  | i, s :: rest, x => by
    intro hx
    simp only [attachIndices, List.mem_cons] at hx
    rcases hx with rfl | hx'
    · exact ⟨s, List.mem_cons_self s rest, rfl⟩
    · obtain ⟨r, hr, hb⟩ := attachIndices_mem (i + 1) rest x hx'
      exact ⟨r, List.mem_cons_of_mem s hr, hb⟩

theorem foldl_stepLine_no_header :
    ∀ (ls : List (List Char)) (t : List Char) (b : List (List Char)),
      (∀ l ∈ ls, isHeaderLine l = false) →
      ls.foldl stepLine [⟨t, b⟩] = [⟨t, b ++ ls⟩]
  | [], t, b, _ => by simp
  | l :: ls', t, b, h => by
    have hl : isHeaderLine l = false := h l (List.mem_cons_self _ _)
    simp only [List.foldl_cons]
    have hstep : stepLine [⟨t, b⟩] l = [⟨t, b ++ [l]⟩] := by
      simp [stepLine, hl]
    rw [hstep,
      foldl_stepLine_no_header ls' t (b ++ [l]) (fun x hx => h x (List.mem_cons_of_mem _ hx))]
    simp

end Sectify

namespace Sectify

/-! ### Claim C4: segmentation totality -/

/-- Claim C4: for every input text (including the empty string), `segment`
returns a finite, non-empty ordered sequence of sections; a document with no
detected headers yields a single section spanning the whole text, and empty
input yields a single empty section rather than an error. -/
theorem segment_never_empty_claim :
    (∀ text : String, 1 ≤ (segment text).length) ∧
    segment "" = [⟨0, "Untitled Section 1", "", 0, none⟩] ∧
    (∀ text : String,
      (∀ line ∈ splitLines text.data, isHeaderLine line = false) →
      segment text = [⟨0, "Untitled Section 1", text, 0, none⟩]) := by
  refine ⟨?_, ?_, ?_⟩
  · intro text
    have h1 : splitLines text.data ≠ [] := splitOnPred_ne_nil _ _
    have h2 := rawSections_ne_nil _ h1
    have h3 := mergeShortSections_ne_nil _ h2
    unfold segment
    rw [attachIndices_length]
    exact List.length_pos.mpr h3
  · decide
  · intro text hnh
    unfold segment
    obtain ⟨l0, ls, hsp⟩ :
        ∃ l0 ls, splitLines text.data = l0 :: ls := by
      cases hx : splitLines text.data with
      | nil => exact absurd hx (splitOnPred_ne_nil _ _)
      | cons l0 ls => exact ⟨l0, ls, rfl⟩
    have hl0 : isHeaderLine l0 = false := by
      apply hnh
      rw [hsp]
      exact List.mem_cons_self _ _
    have hrest : ∀ l ∈ ls, isHeaderLine l = false := by
      intro l hl
      apply hnh
      rw [hsp]
      exact List.mem_cons_of_mem _ hl
    rw [hsp]
    unfold rawSections
    simp only [List.foldl_cons]
    have hstep0 : stepLine [] l0 = [⟨untitledTitle, [l0]⟩] := by
      simp [stepLine, hl0]
    rw [hstep0, foldl_stepLine_no_header ls untitledTitle [l0] hrest]
    show attachIndices 0 (mergeShortSections [⟨untitledTitle, [l0] ++ ls⟩]) = _
    show [(⟨0, String.mk untitledTitle, String.mk (joinLines ([l0] ++ ls)), 0, none⟩ : Section)] = _
    have hjoin : joinLines ([l0] ++ ls) = text.data := by
      rw [show [l0] ++ ls = l0 :: ls from rfl, ← hsp]
      exact joinLines_splitLines text.data
    rw [hjoin]
    rfl

/-- Claim C4 witness: a concrete header-free document yields the single
whole-text section. -/
theorem segment_never_empty_claim_witness :
    segment "hello world, this is plain body text" =
      [⟨0, "Untitled Section 1", "hello world, this is plain body text", 0, none⟩] :=
  segment_never_empty_claim.2.2 _ (by decide)

/-! ### Claim C6: minimum-section-length merging -/

/-- Claim C6 counterexample: the claim says a 5-character section body never
appears as its own section in the output, but the header-free 5-character
document "abcde" necessarily segments into a single standalone section whose
body has 5 characters (below `MIN_SECTION_LENGTH`), since segmentation must
return at least one section. -/
theorem min_section_length_counterexample :
    segment "abcde" = [⟨0, "Untitled Section 1", "abcde", 0, none⟩] ∧
    ("abcde" : String).length < MIN_SECTION_LENGTH := by
  constructor
  · decide
  · decide

/-- Claim C6 amended: every section other than the first — that is, every
section that has a preceding section — whose body would be shorter than
`MIN_SECTION_LENGTH` is merged into the preceding section rather than
emitted standalone: all emitted sections after the first have body length at
least `MIN_SECTION_LENGTH`. -/
theorem min_section_length_amended :
    ∀ text : String, ∀ s ∈ (segment text).drop 1,
      MIN_SECTION_LENGTH ≤ s.body.length := by
  intro text s hs
  unfold segment at hs
  obtain ⟨s0, rest, hraw⟩ :
      ∃ s0 rest, rawSections (splitLines text.data) = s0 :: rest := by
    cases hx : rawSections (splitLines text.data) with
    | nil => exact absurd hx (rawSections_ne_nil _ (splitOnPred_ne_nil _ _))
    | cons s0 rest => exact ⟨s0, rest, rfl⟩
  rw [hraw] at hs
  show MIN_SECTION_LENGTH ≤ s.body.length
  have hmerge : mergeShortSections (s0 :: rest) = mergeAux s0 rest := rfl
  rw [hmerge] at hs
  obtain ⟨m, mr, hm⟩ : ∃ m mr, mergeAux s0 rest = m :: mr := by
    cases hx : mergeAux s0 rest with
    | nil => exact absurd hx (mergeAux_ne_nil rest s0)
    | cons m mr => exact ⟨m, mr, rfl⟩
  rw [hm] at hs
  simp only [attachIndices, List.drop_succ_cons, List.drop_zero] at hs
  obtain ⟨r, hr, hb⟩ := attachIndices_mem 1 mr s hs
  have hr' : r ∈ (mergeAux s0 rest).drop 1 := by
    rw [hm]
    simpa using hr
  have hlen := mergeAux_drop_one rest s0 r hr'
  rw [hb]
  exact hlen

/-- Claim C6 amended witness: in a concrete two-section document both
emitted non-first sections have body length at least `MIN_SECTION_LENGTH`. -/
theorem min_section_length_amended_witness :
    MIN_SECTION_LENGTH ≤
      (Section.mk 1 "2. Notes" "this is the notes body text okay here" 1 none).body.length :=
  min_section_length_amended
    "1. Intro\nthis is the introduction body text here\n2. Notes\nthis is the notes body text okay here"
    _ (by decide)

end Sectify

namespace Sectify

/-! ### Helper lemmas: feedback store and training controller -/

theorem record_model (st : ScorerState) (r : FeedbackRecord) :
    (record st r).model = st.model := by
  unfold record
  split <;> rfl

theorem record_length_le (st : ScorerState) (r : FeedbackRecord) :
    (record st r).feedback.length ≤ st.feedback.length + 1 := by
  unfold record
  split
  · exact Nat.le_succ _
  · simp

theorem record_eq_append (st : ScorerState) (r : FeedbackRecord)
    (h : feedbackKey r ∉ st.feedback.map feedbackKey) :
    record st r = { st with feedback := st.feedback ++ [r] } := by
  unfold record
  rw [if_neg]
  intro hc
  rw [List.any_eq_true] at hc
  obtain ⟨e, he, hk⟩ := hc
  exact h (List.mem_map.mpr ⟨e, he, by simpa [sameKey] using hk⟩)

theorem maybe_retrain_feedback (st : ScorerState) :
    (maybe_retrain st).1.feedback = st.feedback := by
  unfold maybe_retrain
  split
  · rcases hf : fitModel st.feedback with _ | m <;> simp [hf]
  · rfl

theorem maybe_retrain_isSome (st : ScorerState) (h : st.model.isSome) :
    (maybe_retrain st).1.model.isSome := by
  unfold maybe_retrain
  split
  · rcases hf : fitModel st.feedback with _ | m <;> simp [hf, h]
  · exact h

theorem maybe_retrain_small (st : ScorerState)
    (h : st.feedback.length < RETRAIN_THRESHOLD) :
    maybe_retrain st = (st, false) := by
  unfold maybe_retrain
  rw [if_neg]
  simp only [RETRAIN_THRESHOLD] at h ⊢
  omega

theorem maybe_retrain_fire_model (st : ScorerState)
    (hc : st.feedback.length ≠ 0 ∧ st.feedback.length % RETRAIN_THRESHOLD = 0)
    (hm : st.model = none) :
    (maybe_retrain st).1.model = fitModel st.feedback := by
  unfold maybe_retrain
  rw [if_pos hc]
  rcases hf : fitModel st.feedback with _ | m <;> simp [hf, hm]

theorem submit_feedback_isSome (st : ScorerState) (r : FeedbackRecord)
    (h : st.model.isSome) : (submit_feedback st r).model.isSome := by
  unfold submit_feedback
  apply maybe_retrain_isSome
  rw [record_model]
  exact h

theorem runFeedback_isSome (rs : List FeedbackRecord) :
    ∀ st : ScorerState, st.model.isSome → (runFeedback st rs).model.isSome := by
  induction rs with
  | nil => intro st h; exact h
  | cons r rest ih =>
    intro st h
    show ((r :: rest).foldl submit_feedback st).model.isSome
    rw [List.foldl_cons]
    exact ih (submit_feedback st r) (submit_feedback_isSome st r h)

theorem runFeedback_model_none (rs : List FeedbackRecord) :
    ∀ st : ScorerState, st.model = none →
      st.feedback.length + rs.length < RETRAIN_THRESHOLD →
      (runFeedback st rs).model = none := by
  induction rs with
  | nil => intro st h _; exact h
  | cons r rest ih =>
    intro st h hlen
    show ((r :: rest).foldl submit_feedback st).model = none
    rw [List.foldl_cons]
    have hrlen := record_length_le st r
    have hrec_small : (record st r).feedback.length < RETRAIN_THRESHOLD := by
      simp only [List.length_cons] at hlen
      omega
    have hmr := maybe_retrain_small (record st r) hrec_small
    have hsub : submit_feedback st r = record st r := by
      unfold submit_feedback
      rw [hmr]
    apply ih
    · rw [hsub, record_model]
      exact h
    · rw [hsub]
      simp only [List.length_cons] at hlen
      omega

theorem runFeedback_model_exact :
    ∀ (rs : List FeedbackRecord) (st : ScorerState),
      st.model = none → rs ≠ [] →
      st.feedback.length + rs.length = RETRAIN_THRESHOLD →
      ((st.feedback ++ rs).map feedbackKey).Nodup →
      (runFeedback st rs).model = fitModel (st.feedback ++ rs)
  | [], _, _, hne, _, _ => absurd rfl hne
  | [r], st, hm, _, hlen, hnd => by
    have hnotin : feedbackKey r ∉ st.feedback.map feedbackKey := by
      rw [List.map_append, List.nodup_append] at hnd
      intro hin
      exact hnd.2.2 hin (by simp)
    have hrec := record_eq_append st r hnotin
    show ([r].foldl submit_feedback st).model = _
    rw [List.foldl_cons, List.foldl_nil]
    unfold submit_feedback
    rw [hrec]
    rw [maybe_retrain_fire_model]
    · simp only [List.length_cons, List.length_nil] at hlen
      constructor
      · simp only [List.length_append, List.length_cons, List.length_nil]
        omega
      · simp only [List.length_append, List.length_cons, List.length_nil]
        unfold RETRAIN_THRESHOLD at hlen ⊢
        omega
    · exact hm
  | r :: r2 :: rs', st, hm, _, hlen, hnd => by
    have hnotin : feedbackKey r ∉ st.feedback.map feedbackKey := by
      rw [List.map_append, List.nodup_append] at hnd
      intro hin
      exact hnd.2.2 hin (by simp)
    have hrec := record_eq_append st r hnotin
    show ((r :: r2 :: rs').foldl submit_feedback st).model = _
    rw [List.foldl_cons]
    have hrec_small : (record st r).feedback.length < RETRAIN_THRESHOLD := by
      rw [hrec]
      simp only [List.length_append, List.length_cons, List.length_nil] at hlen ⊢
      omega
    have hsub : submit_feedback st r = record st r := by
      unfold submit_feedback
      rw [maybe_retrain_small (record st r) hrec_small]
    rw [hsub, hrec]
    have happ :
        ({ st with feedback := st.feedback ++ [r] } : ScorerState).feedback ++ (r2 :: rs') =
          st.feedback ++ (r :: r2 :: rs') := by
      simp
    have := runFeedback_model_exact (r2 :: rs')
      { st with feedback := st.feedback ++ [r] } hm (by simp)
      (by simp only [List.length_append, List.length_cons, List.length_nil] at hlen ⊢; omega)
      (by rw [happ]; exact hnd)
    rw [happ] at this
    exact this

theorem current_mode_eq_learned_iff (st : ScorerState) :
    current_mode st = ScoringMode.learned ↔ st.model.isSome = true := by
  unfold current_mode
  split
  · rename_i h
    simp [h]
  · rename_i h
    simp only [Bool.not_eq_true] at h
    simp [h]

/-! ### Claim C2: scorer mode state machine -/

/-- Claim C2: the scorer's mode transitions from heuristic to learned the
first time a model is successfully fitted — after exactly
`RETRAIN_THRESHOLD` (10) distinct feedback records with both labels present
— and never earlier; and from any state in which the mode is learned, no
subsequent sequence of feedback events returns the mode to heuristic. -/
theorem scorer_mode_claim :
    (∀ rs : List FeedbackRecord,
        rs.length = RETRAIN_THRESHOLD → (rs.map feedbackKey).Nodup →
        hasBothLabels rs = true →
        current_mode (runFeedback initialScorerState rs) = ScoringMode.learned) ∧
    (∀ rs : List FeedbackRecord, rs.length < RETRAIN_THRESHOLD →
        current_mode (runFeedback initialScorerState rs) = ScoringMode.heuristic) ∧
    (∀ (st : ScorerState) (rs : List FeedbackRecord),
        current_mode st = ScoringMode.learned →
        current_mode (runFeedback st rs) = ScoringMode.learned) := by
  refine ⟨?_, ?_, ?_⟩
  · intro rs hlen hnd hboth
    have hne : rs ≠ [] := by
      intro h0
      rw [h0] at hlen
      simp [RETRAIN_THRESHOLD] at hlen
    have h := runFeedback_model_exact rs initialScorerState rfl hne
      (by simpa [initialScorerState] using hlen) (by simpa [initialScorerState] using hnd)
    rw [current_mode_eq_learned_iff, h]
    show (fitModel ([] ++ rs)).isSome = true
    simp [fitModel, hboth]
  · intro rs hlen
    have h := runFeedback_model_none rs initialScorerState rfl
      (by simpa [initialScorerState] using hlen)
    unfold current_mode
    rw [h]
    rfl
  · intro st rs h
    rw [current_mode_eq_learned_iff] at h ⊢
    exact runFeedback_isSome rs st h

/-- Claim C2 witness: ten distinct feedback records, six relevant and four
not, drive the initial state to learned mode. -/
theorem scorer_mode_claim_witness :
    current_mode (runFeedback initialScorerState
      ((List.range 10).map (fun i => ⟨i, 0, [], decide (i < 6), 0⟩))) =
      ScoringMode.learned :=
  scorer_mode_claim.1 _ (by decide) (by decide) (by decide)

/-! ### Claim C3: feedback idempotence -/

/-- Claim C3: recording feedback identical in (section id, label) to one
already recorded returns without error, inserts no duplicate record and
leaves the accumulated count used for the retrain trigger unchanged. -/
theorem feedback_idempotent_claim :
    ∀ (st : ScorerState) (r : FeedbackRecord),
      st.feedback.any (fun e => sameKey e r) = true →
      record st r = st ∧ (record st r).feedback.length = st.feedback.length := by
  intro st r h
  have hrec : record st r = st := by
    unfold record
    rw [if_pos h]
  exact ⟨hrec, by rw [hrec]⟩

/-- Claim C3 witness: a duplicate submission (same section id and label,
later timestamp) leaves a concrete store untouched. -/
theorem feedback_idempotent_claim_witness :
    record ⟨[⟨1, 0, [], true, 5⟩], none⟩ ⟨1, 0, [], true, 9⟩ =
      ⟨[⟨1, 0, [], true, 5⟩], none⟩ :=
  (feedback_idempotent_claim ⟨[⟨1, 0, [], true, 5⟩], none⟩ ⟨1, 0, [], true, 9⟩ (by decide)).1

end Sectify

namespace Sectify

/-! ### Helper lemmas: scoring bounds -/

theorem clamp01_nonneg (x : ℚ) : 0 ≤ clamp01 x :=
  le_max_left 0 _

theorem clamp01_le_one (x : ℚ) : clamp01 x ≤ 1 :=
  max_le zero_le_one (min_le_left 1 x)

theorem learnedScore_nonneg (m : List FeedbackRecord) (fv : FeatureVector) :
    0 ≤ learnedScore m fv := by
  unfold learnedScore
  positivity

theorem learnedScore_le_one (m : List FeedbackRecord) (fv : FeatureVector) :
    learnedScore m fv ≤ 1 := by
  unfold learnedScore
  rcases Nat.eq_zero_or_pos m.length with h0 | hpos
  · rw [h0]
    norm_num
  · rw [div_le_one (by exact_mod_cast hpos)]
    exact_mod_cast List.countP_le_length _

/-! ### Claim C5: score range and mode -/

/-- Claim C5: for every feature vector of the fixed shape, `score` returns a
relevance value in the closed interval [0,1] together with a mode, and when
no model is held the result is the total heuristic scoring function applied
in heuristic mode (so heuristic-mode scoring never fails, whatever the
numeric content of the vector). -/
theorem score_unit_interval_claim :
    ∀ (st : ScorerState) (fv : FeatureVector),
      0 ≤ (score st fv).1 ∧ (score st fv).1 ≤ 1 ∧
      (st.model = none → score st fv = (heuristicScore fv, ScoringMode.heuristic)) := by
  intro st fv
  rcases hm : st.model with _ | m
  · refine ⟨?_, ?_, fun _ => ?_⟩ <;> simp only [score, hm]
    · exact clamp01_nonneg _
    · exact clamp01_le_one _
  · refine ⟨?_, ?_, fun hc => ?_⟩
    · simp only [score, hm]
      exact learnedScore_nonneg m fv
    · simp only [score, hm]
      exact learnedScore_le_one m fv
    · exact absurd hc (by simp)

/-- Claim C5 witness: scoring a concrete feature vector in the untrained
state yields the heuristic value in heuristic mode. -/
theorem score_unit_interval_claim_witness :
    score initialScorerState
        ⟨0, 10, 2, 1/2, 1, 0, 0, 0, 0, 0, 0, 2, 0, 1/4, []⟩ =
      (heuristicScore ⟨0, 10, 2, 1/2, 1, 0, 0, 0, 0, 0, 0, 2, 0, 1/4, []⟩,
        ScoringMode.heuristic) :=
  (score_unit_interval_claim initialScorerState
    ⟨0, 10, 2, 1/2, 1, 0, 0, 0, 0, 0, 0, 2, 0, 1/4, []⟩).2.2 rfl

/-! ### Claim C7: extractor determinism and purity -/

/-- Claim C7: `extract` is deterministic — two calls on the identical
section (with the same analyzer capability) yield identical feature vectors
— and it is a pure function of the section's id, text and position: two
sections agreeing on those components (even if their optional page numbers
differ) produce identical feature vectors. -/
theorem extract_deterministic_claim :
    (∀ (nlp : Option (List Char → EntityCounts)) (s : Section) (total : Nat),
        extract nlp s total = extract nlp s total) ∧
    (∀ (nlp : Option (List Char → EntityCounts)) (s₁ s₂ : Section) (total : Nat),
        s₁.id = s₂.id → s₁.title = s₂.title → s₁.body = s₂.body →
        s₁.position_index = s₂.position_index →
        extract nlp s₁ total = extract nlp s₂ total) := by
  refine ⟨fun _ _ _ => rfl, ?_⟩
  intro nlp s₁ s₂ total hid htitle hbody hpos
  unfold extract
  rw [hid, htitle, hbody, hpos]

/-- Claim C7 witness: two sections identical in id, text and position but
differing in page number extract to identical feature vectors. -/
theorem extract_deterministic_claim_witness :
    extract none ⟨3, "T", "body text", 1, none⟩ 4 =
      extract none ⟨3, "T", "body text", 1, some 7⟩ 4 :=
  extract_deterministic_claim.2 none ⟨3, "T", "body text", 1, none⟩
    ⟨3, "T", "body text", 1, some 7⟩ 4 rfl rfl rfl rfl

end Sectify

namespace Sectify

/-! ### Claim C1: displayed counts and rendered sections -/

/-- Claim C1: for every document result and threshold, the displayed
`Relevant` count and `Showing N sections` count both equal the number of
sections whose relevance score is at least the threshold, and exactly those
sections (in document order) are rendered. -/
theorem relevant_count_claim :
    ∀ (doc : DocumentResult) (threshold : ℚ),
      relevantCountDisplayed doc threshold =
        (doc.sections.filter (fun s => threshold ≤ s.relevance_score)).length ∧
      sectionsShownCount doc threshold =
        (doc.sections.filter (fun s => threshold ≤ s.relevance_score)).length ∧
      renderedSections doc threshold =
        doc.sections.filter (fun s => threshold ≤ s.relevance_score) ∧
      (∀ s : DisplaySection,
        s ∈ renderedSections doc threshold ↔
          s ∈ doc.sections ∧ threshold ≤ s.relevance_score) := by
  intro doc t
  refine ⟨rfl, rfl, rfl, ?_⟩
  intro s
  simp [renderedSections, filteredSections, List.mem_filter]

/-- Claim C1 witness: in a concrete two-section document at threshold 1/2,
the section scoring 3/4 is rendered. -/
theorem relevant_count_claim_witness :
    (⟨7, "r", "b", (3 : ℚ)/4, [], none⟩ : DisplaySection) ∈
      renderedSections
        ⟨1, "doc", 2, [⟨7, "r", "b", (3 : ℚ)/4, [], none⟩,
          ⟨8, "s", "c", (1 : ℚ)/4, [], none⟩]⟩ ((1 : ℚ)/2) :=
  ((relevant_count_claim
      ⟨1, "doc", 2, [⟨7, "r", "b", (3 : ℚ)/4, [], none⟩,
        ⟨8, "s", "c", (1 : ℚ)/4, [], none⟩]⟩ ((1 : ℚ)/2)).2.2.2
    ⟨7, "r", "b", (3 : ℚ)/4, [], none⟩).mpr
    ⟨List.mem_cons_self _ _, by norm_num⟩

/-! ### Claim C8: score band agreement -/

/-- Claim C8: for every score, the score-band class and score-band color
agree on the same three bands — `high` exactly with `text-emerald-400`
(score at least 7/10), `medium` exactly with `text-yellow-400` (between 4/10
inclusive and 7/10 exclusive), and `low` exactly with `text-red-400`
(below 4/10). -/
theorem score_band_claim :
    ∀ s : ℚ,
      ((getScoreClass s = "high" ↔ getScoreColor s = "text-emerald-400") ∧
       (getScoreClass s = "medium" ↔ getScoreColor s = "text-yellow-400") ∧
       (getScoreClass s = "low" ↔ getScoreColor s = "text-red-400")) ∧
      ((getScoreClass s = "high" ↔ (7 : ℚ)/10 ≤ s) ∧
       (getScoreClass s = "medium" ↔ ((4 : ℚ)/10 ≤ s ∧ s < (7 : ℚ)/10)) ∧
       (getScoreClass s = "low" ↔ s < (4 : ℚ)/10)) := by
  intro s
  have hhm : ("high" : String) ≠ "medium" := by decide
  have hhl : ("high" : String) ≠ "low" := by decide
  have hml : ("medium" : String) ≠ "low" := by decide
  have hcg : ("text-emerald-400" : String) ≠ "text-yellow-400" := by decide
  have hcr : ("text-emerald-400" : String) ≠ "text-red-400" := by decide
  have hyr : ("text-yellow-400" : String) ≠ "text-red-400" := by decide
  unfold getScoreClass getScoreColor
  by_cases h7 : (7 : ℚ)/10 ≤ s
  · rw [if_pos h7, if_pos h7]
    refine ⟨⟨by simp, by simp [hhm, hcg], by simp [hhl, hcr]⟩,
      by simp [h7], ?_, ?_⟩
    · simp only [hhm, false_iff, not_and, not_lt]
      intro _
      exact h7
    · simp only [hhl, false_iff, not_lt]
      linarith
  · rw [if_neg h7, if_neg h7]
    by_cases h4 : (4 : ℚ)/10 ≤ s
    · rw [if_pos h4, if_pos h4]
      refine ⟨⟨by simp [hhm.symm, hcg.symm], by simp, by simp [hml, hyr]⟩,
        by simp [h7, hhm.symm], ?_, ?_⟩
      · simp [h4, lt_of_not_le h7]
      · simp only [hml, false_iff, not_lt]
        exact h4
    · rw [if_neg h4, if_neg h4]
      refine ⟨⟨by simp [hhl.symm, hcr.symm], by simp [hml.symm, hyr.symm], by simp⟩,
        by simp [h7, hhl.symm], ?_, by simp [lt_of_not_le h4]⟩
      simp [hml.symm, h4]

/-- Claim C8 witness: at score 3/4 the class is high exactly when the color
is the emerald one. -/
theorem score_band_claim_witness :
    getScoreClass ((3 : ℚ)/4) = "high" ↔
      getScoreColor ((3 : ℚ)/4) = "text-emerald-400" :=
  (score_band_claim ((3 : ℚ)/4)).1.1

/-! ### Claim C9: upload path selection -/

/-- Claim C9: the batch endpoint is used exactly when batch mode is enabled
and more than one file was accepted; with batch mode enabled and exactly one
file the single-document path is taken; with batch mode disabled only the
first accepted file is uploaded; an empty accepted list performs no
upload. -/
theorem upload_path_claim :
    (∀ (mode : Bool) (files : List UploadFile),
        (∃ fs, onDrop mode files = UploadAction.batchUpload fs) ↔
          (mode = true ∧ 2 ≤ files.length)) ∧
    (∀ f : UploadFile, onDrop true [f] = UploadAction.singleUpload f) ∧
    (∀ (f : UploadFile) (rest : List UploadFile),
        onDrop false (f :: rest) = UploadAction.singleUpload f) ∧
    (∀ mode : Bool, onDrop mode [] = UploadAction.noUpload) := by
  refine ⟨?_, ?_, ?_, ?_⟩
  · intro mode files
    cases files with
    | nil => simp [onDrop]
    | cons f rest =>
      cases mode with
      | false => simp [onDrop]
      | true =>
        cases rest with
        | nil => simp [onDrop]
        | cons r rs =>
          constructor
          · intro _
            refine ⟨rfl, ?_⟩
            simp only [List.length_cons]
            omega
          · intro _
            refine ⟨f :: r :: rs, ?_⟩
            show onDrop true (f :: r :: rs) = UploadAction.batchUpload (f :: r :: rs)
            simp only [onDrop]
            rw [if_pos]
            simp only [Bool.true_and, decide_eq_true_eq, List.length_cons]
            omega
  · intro f
    simp [onDrop]
  · intro f rest
    simp [onDrop]
  · intro mode
    simp [onDrop]

/-- Claim C9 witness: with batch mode enabled and two accepted files the
batch endpoint is used. -/
theorem upload_path_claim_witness :
    ∃ fs, onDrop true [⟨"a"⟩, ⟨"b"⟩] = UploadAction.batchUpload fs :=
  (upload_path_claim.1 true [⟨"a"⟩, ⟨"b"⟩]).mpr (by constructor <;> decide)

/-! ### Claim C10: feedback UI state -/

theorem mem_handleFeedback (outcome : ApiOutcome) (fb : Finset String)
    (docId sectionId : Nat) (k : String) (h : k ∈ fb) :
    k ∈ handleFeedback outcome fb docId sectionId := by
  cases outcome with
  | success => exact Finset.mem_insert_of_mem h
  | failure => exact h

theorem mem_runFeedbackEvents (events : List (ApiOutcome × Nat × Nat)) :
    ∀ (fb : Finset String) (k : String),
      k ∈ fb → k ∈ runFeedbackEvents fb events := by
  induction events with
  | nil =>
    intro fb k h
    exact h
  | cons e rest ih =>
    intro fb k h
    show k ∈ (e :: rest).foldl (fun fb e => handleFeedback e.1 fb e.2.1 e.2.2) fb
    rw [List.foldl_cons]
    exact ih _ k (mem_handleFeedback e.1 fb e.2.1 e.2.2 k h)

/-- Claim C10: the feedback UI state changes only on success — a rejected
submission leaves `feedbackGiven` (and hence the visible feedback buttons)
unchanged, while a successful one adds exactly the one key of that
(document, section) pair, after which the feedback prompt for that section
is never shown again under any further interactions. -/
theorem feedback_ui_state_claim :
    (∀ (fb : Finset String) (d s : Nat),
        handleFeedback ApiOutcome.failure fb d s = fb) ∧
    (∀ (fb : Finset String) (d s : Nat) (k : String),
        k ∈ handleFeedback ApiOutcome.success fb d s ↔
          (k = feedbackKeyString d s ∨ k ∈ fb)) ∧
    (∀ (fb : Finset String) (d s : Nat) (tm : Bool)
        (events : List (ApiOutcome × Nat × Nat)),
        feedbackKeyString d s ∈ fb →
        showFeedbackPrompt tm (runFeedbackEvents fb events) d s = false) ∧
    (∀ (fb : Finset String) (d s : Nat) (tm : Bool),
        showFeedbackPrompt tm (handleFeedback ApiOutcome.failure fb d s) d s =
          showFeedbackPrompt tm fb d s) := by
  refine ⟨fun _ _ _ => rfl, ?_, ?_, fun _ _ _ _ => rfl⟩
  · intro fb d s k
    exact Finset.mem_insert
  · intro fb d s tm events h
    have hmem := mem_runFeedbackEvents events fb _ h
    simp [showFeedbackPrompt, hmem]

/-- Claim C10 witness: after a successful submission for section (1,2), the
prompt for it stays hidden across later interactions. -/
theorem feedback_ui_state_claim_witness :
    showFeedbackPrompt true
      (runFeedbackEvents (handleFeedback ApiOutcome.success ∅ 1 2)
        [(ApiOutcome.failure, 3, 4), (ApiOutcome.success, 5, 6)]) 1 2 = false :=
  feedback_ui_state_claim.2.2.1 (handleFeedback ApiOutcome.success ∅ 1 2) 1 2 true
    [(ApiOutcome.failure, 3, 4), (ApiOutcome.success, 5, 6)] (by decide)

end Sectify
